import Mathlib

/-!
Verification of the business-hours parser and open/closed evaluator
(`src/utils/csvParser.ts`, hours module: `convertTo12Hour`,
`detectHoursFormat`, `formatSimpleHours`, `parseSimpleHours`,
`parseComplexHours`, `isDayInRange`, `parseTimeToMinutes`,
`getRestaurantStatus`, `formatHoursDisplay`).

Strings are modelled as Lean `String` (a structure over `List Char`); the
JavaScript string primitives used by the source (`split`, `trim`,
`toLowerCase`, `includes`, lexicographic `<`/`<=`, `padStart(2, '0')`,
`parseInt`) are given explicit executable models over `List Char`.  The
regex `/(\d{1,2}):?(\d{2})?\s*(AM|PM)/` with the `g` and `i` flags is
modelled by a backtracking matcher specialised to that pattern, following
JavaScript semantics: at each step the engine prefers the greedy
alternative (two hour digits before one, consuming the optional colon and
the optional two minute digits before skipping them) and backtracks the
latest choice first; the global scan retries at each successive position
and resumes after the end of every match.

The current instant (`new Date()`) is passed explicitly as a day index
(`getDay()`, 0 = Sunday) plus hours and minutes.
-/

/-- JavaScript whitespace as relevant here (ASCII subset): space, tab,
line feed, vertical tab, form feed, carriage return. -/
def isJsSpace (c : Char) : Bool :=
  c == ' ' || c == '\t' || c == '\n' || c == '\r' ||
  c == Char.ofNat 11 || c == Char.ofNat 12

/-- Model of `String.prototype.trim` on the character list. -/
def trimCh (cs : List Char) : List Char :=
  ((cs.dropWhile isJsSpace).reverse.dropWhile isJsSpace).reverse

/-- Model of `String.prototype.toLowerCase` for the ASCII inputs used here. -/
def toLowerCh (cs : List Char) : List Char :=
  cs.map Char.toLower

/-- Model of `String.prototype.split(sep)` for a one-character separator:
splits at every occurrence, keeping empty segments, and yields one (empty)
segment for the empty string. -/
def jsSplitCh (sep : Char) : List Char → List (List Char)
  | [] => [[]]
  | c :: rest =>
    let groups := jsSplitCh sep rest
    if c = sep then [] :: groups
    else
      match groups with
      | g :: gs => (c :: g) :: gs
      | [] => [[c]]

/-- Model of `Array.prototype.join(sep)` for a one-character separator. -/
def joinWith (sep : Char) : List (List Char) → List Char
  | [] => []
  | [g] => g
  | g :: gs => g ++ sep :: joinWith sep gs

/-- Prefix test on character lists (used for the substring test below). -/
def isPrefixCh : List Char → List Char → Bool
  | [], _ => true
  | _ :: _, [] => false
  | p :: ps, c :: cs => p == c && isPrefixCh ps cs

/-- Model of `String.prototype.includes(pat)`: `pat` occurs as a
contiguous substring. -/
def containsSub (pat : List Char) (cs : List Char) : Bool :=
  match cs with
  | [] => isPrefixCh pat []
  | _ :: rest => isPrefixCh pat cs || containsSub pat rest

/-- Numeric value of a list of decimal digit characters (the regex capture
groups fed to `parseInt(_, 10)` consist of digits only). -/
def natOfDigits (cs : List Char) : Nat :=
  cs.foldl (fun acc c => 10 * acc + (c.toNat - 48)) 0

/-- Model of `parseInt(s, 10)` for the non-negative inputs that occur
here: the maximal leading run of digits, `none` standing for `NaN` when
the string does not start with a digit. -/
def jsParseInt (s : String) : Option Nat :=
  match s.data with
  | c :: _ => if c.isDigit then some (natOfDigits (s.data.takeWhile Char.isDigit)) else none
  | [] => none

/-- Lexicographic strict comparison of character lists by code point,
modelling JavaScript `<` on strings. -/
def lexLT : List Char → List Char → Bool
  | [], [] => false
  | [], _ :: _ => true
  | _ :: _, [] => false
  | a :: as, b :: bs =>
    if a.val < b.val then true
    else if b.val < a.val then false
    else lexLT as bs

/-- JavaScript `a < b` on strings. -/
def strLT (a b : String) : Bool := lexLT a.data b.data

/-- JavaScript `a <= b` on strings (total order: `a <= b` iff `¬ (b < a)`). -/
def strLE (a b : String) : Bool := !strLT b a

/-- Model of `String(n).padStart(2, '0')` for a natural number. -/
def pad2 (n : Nat) : String :=
  if n < 10 then "0" ++ toString n else toString n

/-- One match of the time-token regex `/(\d{1,2}):?(\d{2})?\s*(AM|PM)/i`:
the full matched text (`match[0]`), the hour digits (`match[1]`), the
optional minute digits (`match[2]`) and whether `match[3]` is `PM`
(upper-cased). -/
structure TimeTok where
  text : String
  hourStr : String
  minStr : Option String
  isPM : Bool
deriving DecidableEq, Repr

/-- Tail of the pattern after the hour/colon/minute choices: `\s*` (greedy,
never needs backtracking since whitespace cannot start `AM`/`PM`) followed
by case-insensitive `AM|PM`.  `hcs` and `mid` are the characters already
consumed for the hour and colon/minutes; returns the token and the
remaining input. -/
def finishMatch (hcs mid : List Char) (mn : Option (List Char)) (rest : List Char) :
    Option (TimeTok × List Char) :=
  match rest.dropWhile isJsSpace with
  | c1 :: c2 :: r2 =>
    if (c1.toUpper == 'A' || c1.toUpper == 'P') && c2.toUpper == 'M' then
      some ({ text := String.mk (hcs ++ mid ++ rest.takeWhile isJsSpace ++ [c1, c2]),
              hourStr := String.mk hcs,
              minStr := mn.map String.mk,
              isPM := c1.toUpper == 'P' }, r2)
    else none
  | _ => none

/-- The `(\d{2})?` choice point: greedily take two minute digits, and on
failure of the rest of the pattern retry without them. -/
def tryMin (hcs mid : List Char) (r : List Char) : Option (TimeTok × List Char) :=
  match r with
  | m1 :: m2 :: r3 =>
    if m1.isDigit && m2.isDigit then
      match finishMatch hcs (mid ++ [m1, m2]) (some [m1, m2]) r3 with
      | some res => some res
      | none => finishMatch hcs mid none (m1 :: m2 :: r3)
    else finishMatch hcs mid none (m1 :: m2 :: r3)
  | _ => finishMatch hcs mid none r

/-- The `:?` choice point: greedily consume a colon, and on failure of the
rest of the pattern retry without consuming it. -/
def matchWithHour (hcs : List Char) (r1 : List Char) : Option (TimeTok × List Char) :=
  match r1 with
  | ':' :: r2 =>
    (match tryMin hcs [':'] r2 with
     | some res => some res
     | none => tryMin hcs [] (':' :: r2))
  | _ => tryMin hcs [] r1

/-- Attempt to match the time-token pattern at the start of the input:
the `\d{1,2}` choice point prefers two digits over one. -/
def matchTimeAt (cs : List Char) : Option (TimeTok × List Char) :=
  match cs with
  | d1 :: d2 :: r =>
    if d1.isDigit then
      if d2.isDigit then
        match matchWithHour [d1, d2] r with
        | some res => some res
        | none => matchWithHour [d1] (d2 :: r)
      else matchWithHour [d1] (d2 :: r)
    else none
  | [d1] => if d1.isDigit then matchWithHour [d1] [] else none
  | [] => none

/-- Model of `str.match(/(\d{1,2}):?(\d{2})?\s*(AM|PM)/gi)`: scan left to
right, retrying at each position, and resume after the end of each match;
the result lists the matches in order (the empty list standing for
JavaScript's `null` result).  Recursion is by fuel so that the function
reduces structurally; one unit of fuel per input character suffices
because every loop iteration consumes at least one character (a match
consumes at least its hour digit and `AM`/`PM`; a failed position is
skipped) — `scanTimeTokens_unfold` below proves the fuel-free unfolding
equation. -/
def scanTimeTokensAux (fuel : Nat) (cs : List Char) : List TimeTok :=
  match fuel with
  | 0 => []
  | fuel' + 1 =>
    match matchTimeAt cs with
    | some (tok, rem) => tok :: scanTimeTokensAux fuel' rem
    | none =>
      match cs with
      | [] => []
      | _ :: rest => scanTimeTokensAux fuel' rest

/-- The global scan with exactly enough fuel. -/
def scanTimeTokens (cs : List Char) : List TimeTok :=
  scanTimeTokensAux cs.length cs

/-- Model of `str.match(/(\d{1,2}):?(\d{2})?\s*(AM|PM)/i)` (no `g` flag):
the first match, scanning left to right. -/
def firstTimeMatch : List Char → Option TimeTok
  | [] => none
  | c :: rest =>
    match matchTimeAt (c :: rest) with
    | some (tok, _) => some tok
    | none => firstTimeMatch rest

/-- Source `parseTimeToMinutes(timeStr)`: first regex match (the sentinel
`0` when there is none), `hours` and `minutes` from the capture groups
(minutes defaulting to 0), then the 12-hour to 24-hour adjustment. -/
def parseTimeToMinutes (timeStr : String) : Nat :=
  match firstTimeMatch timeStr.data with
  | none => 0
  | some tok =>
    let hours := natOfDigits tok.hourStr.data
    let minutes := match tok.minStr with
                   | some m => natOfDigits m.data
                   | none => 0
    let hours24 := if tok.isPM && hours != 12 then hours + 12
                   else if !tok.isPM && hours == 12 then 0
                   else hours
    hours24 * 60 + minutes

/-- Source `convertTo12Hour(time)`: split on `:`, `parseInt` the first
part, display hour `hour % 12 || 12`, `AM` below 12.  When the hour part
has no leading digit, `parseInt` yields `NaN`, so `NaN >= 12` is false and
`NaN % 12 || 12` is `12`; a missing minutes part interpolates as the text
`undefined`. -/
def convertTo12Hour (time : String) : String :=
  let parts := jsSplitCh ':' time.data
  let minutes := match parts with
                 | _ :: m :: _ => String.mk m
                 | _ => "undefined"
  match jsParseInt (String.mk (parts.headD [])) with
  | some hour =>
    let ampm := if hour ≥ 12 then "PM" else "AM"
    let displayHour := if hour % 12 = 0 then 12 else hour % 12
    toString displayHour ++ ":" ++ minutes ++ " " ++ ampm
  | none => "12:" ++ minutes ++ " AM"

/-- The two hours-format tags. -/
inductive HoursFormat where
  | simple
  | complex
deriving DecidableEq, Repr

/-- The regex `/^\d{1,2}:\d{2}$/` of `detectHoursFormat`, as a direct
shape test on the character list. -/
def simpleTimePattern (cs : List Char) : Bool :=
  match cs with
  | [a, c, b1, b2] => a.isDigit && c == ':' && b1.isDigit && b2.isDigit
  | [a1, a2, c, b1, b2] => a1.isDigit && a2.isDigit && c == ':' && b1.isDigit && b2.isDigit
  | _ => false

/-- Source `detectHoursFormat(openingHours, closingHours)`. -/
def detectHoursFormat (openingHours closingHours : String) : HoursFormat :=
  if simpleTimePattern openingHours.data && simpleTimePattern closingHours.data then
    HoursFormat.simple
  else HoursFormat.complex

/-- Source `formatSimpleHours(opening, closing)`. -/
def formatSimpleHours (opening closing : String) : String :=
  convertTo12Hour opening ++ " - " ++ convertTo12Hour closing

/-- Source `OpenStatus` record; the optional `nextChange` field is absent
(`undefined`) exactly when it is `none` here. -/
structure OpenStatus where
  isOpen : Bool
  statusText : String
  statusColor : String
  nextChange : Option String
deriving DecidableEq, Repr

/-- Source `parseSimpleHours(opening, closing)` with the wall clock passed
explicitly: the current time rendered as zero-padded `HH:MM`, membership
by lexicographic string comparison, inclusive at both ends. -/
def parseSimpleHours (opening closing : String) (nowH nowM : Nat) : OpenStatus :=
  let currentTime := pad2 nowH ++ ":" ++ pad2 nowM
  let isOpen := strLE opening currentTime && strLE currentTime closing
  let nextChange : Option String :=
    if isOpen then some ("Closes at " ++ convertTo12Hour closing)
    else if strLT currentTime opening then some ("Opens at " ++ convertTo12Hour opening)
    else none
  { isOpen := isOpen,
    statusText := if isOpen then "Open Now" else "Closed",
    statusColor := if isOpen then "text-green-600" else "text-red-600",
    nextChange := nextChange }

/-- Source `dayMap` object: canonical day map, abbreviation and full name,
`sun`→0 … `sat`→6; unknown keys give `undefined` (`none`). -/
def dayMap (s : String) : Option Nat :=
  if s == "sun" || s == "sunday" then some 0
  else if s == "mon" || s == "monday" then some 1
  else if s == "tue" || s == "tuesday" then some 2
  else if s == "wed" || s == "wednesday" then some 3
  else if s == "thu" || s == "thursday" then some 4
  else if s == "fri" || s == "friday" then some 5
  else if s == "sat" || s == "saturday" then some 6
  else none

/-- Day-part resolution of `parseComplexHours`: when the token contains a
hyphen, `const [start, end] = dayPart.split('-').map(d => d.trim())`
takes the first two hyphen-separated parts (parts after the second are
discarded by the destructuring); otherwise both bounds are the single
looked-up day. -/
def resolveDays (dayPart : List Char) : Option Nat × Option Nat :=
  if dayPart.contains '-' then
    match (jsSplitCh '-' dayPart).map trimCh with
    | p0 :: p1 :: _ => (dayMap (String.mk p0), dayMap (String.mk p1))
    | [p0] => (dayMap (String.mk p0), none)
    | [] => (none, none)
  else
    (dayMap (String.mk dayPart), dayMap (String.mk dayPart))

/-- Source `isDayInRange(day, start, end)` on resolved (number) bounds. -/
def isDayInRange (day s e : Nat) : Bool :=
  if s ≤ e then decide (day ≥ s) && decide (day ≤ e)
  else decide (day ≥ s) || decide (day ≤ e)

/-- The day-range test as `parseComplexHours` actually reaches it.  The
guard `startDay !== null && endDay !== null` in the source never fires: a
failed `dayMap` lookup yields `undefined`, and `undefined !== null` is
true in JavaScript.  `isDayInRange` is therefore also reached with
`undefined` bounds, where every numeric comparison against `undefined`
(coerced to `NaN`) is false: with both bounds `undefined` the result is
false, with only `end` undefined the branch `day >= start || day <= end`
degenerates to `day >= start`, and with only `start` undefined to
`day <= end`. -/
def isDayInRangeJS (day : Nat) : Option Nat → Option Nat → Bool
  | some s, some e => isDayInRange day s e
  | some s, none => decide (day ≥ s)
  | none, some e => decide (day ≤ e)
  | none, none => false

/-- Clause decomposition of `parseComplexHours`: split on `:`; clauses
with fewer than two parts are skipped; the day part is the first part
trimmed and lower-cased, the time part everything after the first colon
(re-joined with `:`) trimmed. -/
def splitClause (schedule : List Char) : Option (List Char × List Char) :=
  match jsSplitCh ':' schedule with
  | p0 :: p1 :: rest => some (toLowerCh (trimCh p0), trimCh (joinWith ':' (p1 :: rest)))
  | _ => none

/-- The `&`-separated interval strings of a clause's time part. -/
def intervalsOf (timePart : List Char) : List (List Char) :=
  (jsSplitCh '&' timePart).map trimCh

/-- Interval loop of `parseComplexHours`: for each interval string in
order, if its token scan yields at least two tokens and the current time
lies between the first two (inclusive), return the close token's text;
otherwise move on to the next interval. -/
def firstOpenInterval (t : Nat) : List (List Char) → Option String
  | [] => none
  | tr :: rest =>
    match scanTimeTokens tr with
    | o :: c :: _ =>
      if parseTimeToMinutes o.text ≤ t && t ≤ parseTimeToMinutes c.text then some c.text
      else firstOpenInterval t rest
    | _ => firstOpenInterval t rest

/-- One clause of the day-qualified loop: parse the clause, test the day
range, and on a day match search the intervals; yields the close token of
the first interval containing the current time, if any. -/
def evalSchedule (day t : Nat) (schedule : List Char) : Option String :=
  match splitClause schedule with
  | none => none
  | some (dayPart, timePart) =>
    let bounds := resolveDays dayPart
    if isDayInRangeJS day bounds.1 bounds.2 then firstOpenInterval t (intervalsOf timePart)
    else none

/-- Clause loop of `parseComplexHours`: first clause (in textual order)
that yields an open verdict wins; clauses yielding none are passed over. -/
def findClauseOpen (day t : Nat) : List (List Char) → Option String
  | [] => none
  | s :: rest =>
    match evalSchedule day t s with
    | some c => some c
    | none => findClauseOpen day t rest

/-- Day-qualified portion of `parseComplexHours`: split the descriptor on
`;`, trim each clause, and run the clause loop; falling through yields the
closed record with no `nextChange`. -/
def parseDaySchedules (hoursString : String) (day t : Nat) : OpenStatus :=
  let schedules := (jsSplitCh ';' hoursString.data).map trimCh
  match findClauseOpen day t schedules with
  | some closeStr =>
    { isOpen := true, statusText := "Open Now", statusColor := "text-green-600",
      nextChange := some ("Closes at " ++ closeStr) }
  | none =>
    { isOpen := false, statusText := "Closed", statusColor := "text-red-600",
      nextChange := none }

/-- The string `"daily:"` looked for by the Daily shorthand. -/
def dailyMarker : String := "daily:"

/-- Source `parseComplexHours(hoursString)` with the wall clock passed
explicitly (`day` from `getDay()`, `t` in minutes since midnight).  If the
lower-cased descriptor contains `daily:` and the global token scan finds
at least two tokens, the first two decide the verdict and `nextChange` is
always present; otherwise the day-qualified loop runs. -/
def parseComplexHours (hoursString : String) (day t : Nat) : OpenStatus :=
  if containsSub dailyMarker.data (toLowerCh hoursString.data) then
    match scanTimeTokens hoursString.data with
    | openTok :: closeTok :: _ =>
      let openTime := parseTimeToMinutes openTok.text
      let closeTime := parseTimeToMinutes closeTok.text
      let isOpen := decide (openTime ≤ t) && decide (t ≤ closeTime)
      { isOpen := isOpen,
        statusText := if isOpen then "Open Now" else "Closed",
        statusColor := if isOpen then "text-green-600" else "text-red-600",
        nextChange := some (if isOpen then "Closes at " ++ closeTok.text
                            else "Opens at " ++ openTok.text) }
    | _ => parseDaySchedules hoursString day t
  else parseDaySchedules hoursString day t

/-- Source `getRestaurantStatus(openingHours, closingHours)` with the wall
clock passed explicitly. -/
def getRestaurantStatus (openingHours closingHours : String)
    (day nowH nowM : Nat) : OpenStatus :=
  match detectHoursFormat openingHours closingHours with
  | HoursFormat.simple => parseSimpleHours openingHours closingHours nowH nowM
  | HoursFormat.complex => parseComplexHours openingHours day (nowH * 60 + nowM)

/-- Source `formatHoursDisplay(openingHours, closingHours, format?)`; the
optional override argument is `Option HoursFormat`, and `format ||
detectHoursFormat(...)` is `Option.getD` since both tags are truthy. -/
def formatHoursDisplay (openingHours closingHours : String)
    (format : Option HoursFormat) : String :=
  match format.getD (detectHoursFormat openingHours closingHours) with
  | HoursFormat.simple => formatSimpleHours openingHours closingHours
  | HoursFormat.complex => openingHours

/-- The open record produced by the day-qualified loop, as a named value
for use in specification statements. -/
def openNowRecord (closeStr : String) : OpenStatus :=
  { isOpen := true, statusText := "Open Now", statusColor := "text-green-600",
    nextChange := some ("Closes at " ++ closeStr) }

/-- The closed record produced when no clause matches. -/
def closedRecord : OpenStatus :=
  { isOpen := false, statusText := "Closed", statusColor := "text-red-600",
    nextChange := none }

/-- Whether `parseComplexHours` takes the Daily-shorthand path: the
lower-cased descriptor contains `daily:` and the global token scan finds
at least two tokens. -/
def dailyPathTaken (hs : String) : Bool :=
  containsSub dailyMarker.data (toLowerCh hs.data) &&
    decide (2 ≤ (scanTimeTokens hs.data).length)

/-- Specification formula for a parsed time token, written from the spec's
words: hour times sixty plus minute, minutes defaulting to zero, `12 AM`
giving hour 0, `12 PM` giving hour 12, and any other hour kept as-is plus
twelve when `PM`. -/
def timeTokValue (tok : TimeTok) : Nat :=
  let hour := natOfDigits tok.hourStr.data
  let minute := match tok.minStr with
                | some m => natOfDigits m.data
                | none => 0
  let hour24 := if hour = 12 then (if tok.isPM then 12 else 0)
                else (if tok.isPM then hour + 12 else hour)
  hour24 * 60 + minute

/-- Specification shape for the Simple format, written from the spec's
words: one or two digit hour, a colon, exactly two digit minute, and
nothing else in the string. -/
def simplePatternSpec (cs : List Char) : Prop :=
  (∃ h1 m1 m2 : Char, cs = [h1, ':', m1, m2] ∧
     h1.isDigit = true ∧ m1.isDigit = true ∧ m2.isDigit = true) ∨
  (∃ h1 h2 m1 m2 : Char, cs = [h1, h2, ':', m1, m2] ∧
     h1.isDigit = true ∧ h2.isDigit = true ∧ m1.isDigit = true ∧ m2.isDigit = true)

/-- Display invariant claimed for every produced status record:
`statusText` and `statusColor` are the fixed tokens determined by
`isOpen`, never any other value. -/
def statusConsistent (st : OpenStatus) : Prop :=
  (st.isOpen = true → st.statusText = "Open Now" ∧ st.statusColor = "text-green-600") ∧
  (st.isOpen = false → st.statusText = "Closed" ∧ st.statusColor = "text-red-600")

/-- Amended Simple-format specification (see claim C2): status equals the
Simple evaluator's result; openness is the inclusive lexicographic bound
test against the zero-padded `HH:MM` clock string; when open `nextChange`
announces the closing time, when closed and before opening it announces
the opening time, and when closed past closing (and not before opening,
which takes precedence for descriptors with `closing < opening`) it is
absent. -/
def simpleSpecAmended (opening closing : String) (day nowH nowM : Nat) : Prop :=
  getRestaurantStatus opening closing day nowH nowM =
      parseSimpleHours opening closing nowH nowM
  ∧ (parseSimpleHours opening closing nowH nowM).isOpen =
      (strLE opening (pad2 nowH ++ ":" ++ pad2 nowM) &&
       strLE (pad2 nowH ++ ":" ++ pad2 nowM) closing)
  ∧ ((parseSimpleHours opening closing nowH nowM).isOpen = true →
      (parseSimpleHours opening closing nowH nowM).nextChange =
        some ("Closes at " ++ convertTo12Hour closing))
  ∧ ((parseSimpleHours opening closing nowH nowM).isOpen = false →
      strLT (pad2 nowH ++ ":" ++ pad2 nowM) opening = true →
      (parseSimpleHours opening closing nowH nowM).nextChange =
        some ("Opens at " ++ convertTo12Hour opening))
  ∧ (strLT closing (pad2 nowH ++ ":" ++ pad2 nowM) = true →
      strLE opening (pad2 nowH ++ ":" ++ pad2 nowM) = true →
      (parseSimpleHours opening closing nowH nowM).nextChange = none)
/-- Dropping a while-prefix never lengthens a list. -/
theorem length_dropWhile_le (p : Char → Bool) (l : List Char) :
    (l.dropWhile p).length ≤ l.length := by
  induction l with
  | nil => simp [List.dropWhile]
  | cons c rest ih =>
    rw [List.dropWhile]
    cases hp : p c
    · simp
    · simpa using Nat.le_succ_of_le ih

/-- A successful `finishMatch` leaves at most the input it was given. -/
theorem finishMatch_length {hcs mid : List Char} {mn : Option (List Char)}
    {rest : List Char} {tok : TimeTok} {rem : List Char}
    (h : finishMatch hcs mid mn rest = some (tok, rem)) : rem.length ≤ rest.length := by
  have hlen : (rest.dropWhile isJsSpace).length ≤ rest.length :=
    length_dropWhile_le isJsSpace rest
  unfold finishMatch at h
  split at h
  · rename_i c1 c2 r2 heq
    split at h
    · simp only [Option.some.injEq, Prod.mk.injEq] at h
      obtain ⟨_, hrem⟩ := h
      subst hrem
      rw [heq] at hlen
      simp [List.length_cons] at hlen
      omega
    · simp at h
  · simp at h

/-- A successful `tryMin` leaves at most the input it was given. -/
theorem tryMin_length {hcs mid r : List Char} {tok : TimeTok} {rem : List Char}
    (h : tryMin hcs mid r = some (tok, rem)) : rem.length ≤ r.length := by
  unfold tryMin at h
  split at h
  · rename_i m1 m2 r3
    split at h
    · split at h
      · rename_i res hres
        simp only [Option.some.injEq] at h
        subst h
        have hr3 := finishMatch_length hres
        simp [List.length_cons]
        omega
      · exact finishMatch_length h
    · exact finishMatch_length h
  · exact finishMatch_length h

/-- A successful `matchWithHour` leaves at most the input it was given. -/
theorem matchWithHour_length {hcs r1 : List Char} {tok : TimeTok} {rem : List Char}
    (h : matchWithHour hcs r1 = some (tok, rem)) : rem.length ≤ r1.length := by
  unfold matchWithHour at h
  split at h
  · rename_i r2
    split at h
    · rename_i res hres
      simp only [Option.some.injEq] at h
      subst h
      have := tryMin_length hres
      simp [List.length_cons]
      omega
    · exact tryMin_length h
  · exact tryMin_length h

/-- A successful `matchTimeAt` consumes at least one character. -/
theorem matchTimeAt_length {cs : List Char} {tok : TimeTok} {rem : List Char}
    (h : matchTimeAt cs = some (tok, rem)) : rem.length < cs.length := by
  unfold matchTimeAt at h
  split at h
  · rename_i d1 d2 r
    split at h
    · split at h
      · split at h
        · rename_i res hres
          simp only [Option.some.injEq] at h
          subst h
          have := matchWithHour_length hres
          simp [List.length_cons]
          omega
        · have := matchWithHour_length h
          simp [List.length_cons] at this ⊢
          omega
      · have := matchWithHour_length h
        simp [List.length_cons] at this ⊢
        omega
    · simp at h
  · rename_i d1
    split at h
    · have hle := matchWithHour_length h
      have hz : rem.length ≤ 0 := by simpa using hle
      show rem.length < 1
      omega
    · simp at h
  · simp at h

/-- The fuel argument of `scanTimeTokensAux` is irrelevant once it covers
the input length: every iteration consumes at least one character. -/
theorem scanTimeTokensAux_fuel :
    ∀ (f1 f2 : Nat) (cs : List Char), cs.length ≤ f1 → cs.length ≤ f2 →
      scanTimeTokensAux f1 cs = scanTimeTokensAux f2 cs := by
  intro f1
  induction f1 with
  | zero =>
    intro f2 cs h1 _
    have hnil : cs = [] := List.eq_nil_of_length_eq_zero (Nat.le_zero.1 h1)
    subst hnil
    cases f2 <;> rfl
  | succ f1' ih =>
    intro f2 cs h1 h2
    cases f2 with
    | zero =>
      have hnil : cs = [] := List.eq_nil_of_length_eq_zero (Nat.le_zero.1 h2)
      subst hnil
      rfl
    | succ f2' =>
      rcases hm : matchTimeAt cs with _ | ⟨tok, rem⟩
      · rcases cs with _ | ⟨c, rest⟩
        · rfl
        · simp only [scanTimeTokensAux, hm]
          simp only [List.length_cons] at h1 h2
          exact ih f2' rest (by omega) (by omega)
      · simp only [scanTimeTokensAux, hm]
        have hlt := matchTimeAt_length hm
        have hr1 : rem.length ≤ f1' := by omega
        have hr2 : rem.length ≤ f2' := by omega
        rw [ih f2' rem hr1 hr2]

/-- Fuel-free unfolding equation of the global token scan: it behaves as
the JavaScript loop — try a match at the current position, emit it and
resume after its end, or skip one character. -/
theorem scanTimeTokens_unfold (cs : List Char) :
    scanTimeTokens cs =
      match matchTimeAt cs with
      | some (tok, rem) => tok :: scanTimeTokens rem
      | none =>
        match cs with
        | [] => []
        | _ :: rest => scanTimeTokens rest := by
  rcases cs with _ | ⟨c, rest⟩
  · rfl
  · show scanTimeTokensAux ((c :: rest).length) (c :: rest) = _
    rcases hm : matchTimeAt (c :: rest) with _ | ⟨tok, rem⟩
    · simp only [List.length_cons, scanTimeTokensAux, hm]
      rfl
    · simp only [List.length_cons, scanTimeTokensAux, hm]
      have hlt := matchTimeAt_length hm
      simp only [List.length_cons] at hlt
      exact congrArg (tok :: ·) (scanTimeTokensAux_fuel rest.length rem.length rem
        (by omega) (Nat.le_refl _))

/-- Claim C9: passing the auto-detected format explicitly to the display
formatter never changes the rendered string —
`formatHoursDisplay o c (detectHoursFormat o c)` equals
`formatHoursDisplay o c` with no override, for all inputs. -/
theorem claim_C9_format_idempotent (o c : String) :
    formatHoursDisplay o c (some (detectHoursFormat o c)) =
      formatHoursDisplay o c none := rfl

theorem claim_C9_witness :
    formatHoursDisplay ("11:00") ("22:00") (some (detectHoursFormat ("11:00") ("22:00"))) =
      formatHoursDisplay ("11:00") ("22:00") none :=
  claim_C9_format_idempotent ("11:00") ("22:00")

/-- The source pattern test agrees with the specification shape. -/
theorem simpleTimePattern_iff (cs : List Char) :
    simpleTimePattern cs = true ↔ simplePatternSpec cs := by
  constructor
  · intro h
    rcases cs with _ | ⟨a, _ | ⟨b, _ | ⟨c, _ | ⟨d, _ | ⟨e, _ | ⟨f, tail⟩⟩⟩⟩⟩⟩
    · simp [simpleTimePattern] at h
    · simp [simpleTimePattern] at h
    · simp [simpleTimePattern] at h
    · simp [simpleTimePattern] at h
    · simp only [simpleTimePattern, Bool.and_eq_true, beq_iff_eq] at h
      obtain ⟨⟨⟨ha, hb⟩, hc⟩, hd⟩ := h
      subst hb
      exact Or.inl ⟨a, c, d, rfl, ha, hc, hd⟩
    · simp only [simpleTimePattern, Bool.and_eq_true, beq_iff_eq] at h
      obtain ⟨⟨⟨⟨ha, hb⟩, hc⟩, hd⟩, he⟩ := h
      subst hc
      exact Or.inr ⟨a, b, d, e, rfl, ha, hb, hd, he⟩
    · simp [simpleTimePattern] at h
  · rintro (⟨h1, m1, m2, rfl, hd1, hd2, hd3⟩ | ⟨h1, h2, m1, m2, rfl, hd1, hd2, hd3, hd4⟩) <;>
      simp [simpleTimePattern, hd1, hd2, hd3, *]

/-- Claim C7: the detector returns Simple exactly when both strings are,
in their entirety, a one-or-two digit hour, a colon and exactly two minute
digits; any deviation yields Complex, and the check is purely syntactic
(it accepts the semantically invalid `99:99`). -/
theorem claim_C7_detect :
    (∀ o c : String, detectHoursFormat o c = HoursFormat.simple ↔
       (simplePatternSpec o.data ∧ simplePatternSpec c.data))
  ∧ detectHoursFormat ("11:00") ("22:00") = HoursFormat.simple
  ∧ detectHoursFormat ("Daily: 11:00AM-10:00PM") ("") = HoursFormat.complex
  ∧ detectHoursFormat ("99:99") ("99:99") = HoursFormat.simple := by
  refine ⟨?_, by decide, by decide, by decide⟩
  intro o c
  constructor
  · intro h
    unfold detectHoursFormat at h
    split at h
    · rename_i hb
      rw [Bool.and_eq_true] at hb
      exact ⟨(simpleTimePattern_iff _).1 hb.1, (simpleTimePattern_iff _).1 hb.2⟩
    · simp at h
  · rintro ⟨h1, h2⟩
    have hb : (simpleTimePattern o.data && simpleTimePattern c.data) = true := by
      rw [Bool.and_eq_true]
      exact ⟨(simpleTimePattern_iff _).2 h1, (simpleTimePattern_iff _).2 h2⟩
    simp [detectHoursFormat, hb]

theorem claim_C7_witness :
    detectHoursFormat ("11:00") ("22:00") = HoursFormat.simple ↔
      (simplePatternSpec (("11:00" : String).data) ∧
       simplePatternSpec (("22:00" : String).data)) :=
  claim_C7_detect.1 ("11:00") ("22:00")

/-- Claim C5: for day indices in 0..6, a range with `start ≤ end` contains
exactly the days between the bounds, and a range with `start > end` wraps
the week boundary; in particular `"Fri-Sun: 11AM-10PM"` is open Friday,
Saturday and Sunday at 7 PM, and closed Monday at 7 PM. -/
theorem claim_C5_day_range :
    (∀ day s e : Nat, day < 7 → s < 7 → e < 7 →
       (isDayInRange day s e = true ↔
         (if s ≤ e then s ≤ day ∧ day ≤ e else s ≤ day ∨ day ≤ e)))
  ∧ (getRestaurantStatus ("Fri-Sun: 11AM-10PM") ("") 5 19 0).isOpen = true
  ∧ (getRestaurantStatus ("Fri-Sun: 11AM-10PM") ("") 6 19 0).isOpen = true
  ∧ (getRestaurantStatus ("Fri-Sun: 11AM-10PM") ("") 0 19 0).isOpen = true
  ∧ (getRestaurantStatus ("Fri-Sun: 11AM-10PM") ("") 1 19 0).isOpen = false := by
  refine ⟨?_, by decide, by decide, by decide, by decide⟩
  intro day s e _ _ _
  by_cases hse : s ≤ e <;> simp [isDayInRange, hse, ge_iff_le]

theorem claim_C5_witness :
    (6 : Nat) < 7 ∧
      (isDayInRange 6 5 0 = true ↔ (if 5 ≤ 0 then 5 ≤ 6 ∧ 6 ≤ 0 else 5 ≤ 6 ∨ 6 ≤ 0)) :=
  ⟨by decide, claim_C5_day_range.1 6 5 0 (by decide) (by decide) (by decide)⟩

/-- Records built with the `isOpen ? ... : ...` text and color selectors
satisfy the display invariant. -/
theorem statusConsistent_mk (b : Bool) (nc : Option String) :
    statusConsistent { isOpen := b,
                       statusText := if b then "Open Now" else "Closed",
                       statusColor := if b then "text-green-600" else "text-red-600",
                       nextChange := nc } := by
  cases b <;> simp [statusConsistent]

/-- The Simple evaluator satisfies the display invariant. -/
theorem parseSimpleHours_statusConsistent (o c : String) (nowH nowM : Nat) :
    statusConsistent (parseSimpleHours o c nowH nowM) := by
  unfold parseSimpleHours
  exact statusConsistent_mk _ _

/-- The day-qualified evaluator satisfies the display invariant. -/
theorem parseDaySchedules_statusConsistent (hs : String) (day t : Nat) :
    statusConsistent (parseDaySchedules hs day t) := by
  simp only [parseDaySchedules]
  rcases findClauseOpen day t ((jsSplitCh ';' hs.data).map trimCh) with _ | closeStr <;>
    simp [statusConsistent]

/-- The Complex evaluator satisfies the display invariant. -/
theorem parseComplexHours_statusConsistent (hs : String) (day t : Nat) :
    statusConsistent (parseComplexHours hs day t) := by
  unfold parseComplexHours
  by_cases hd : containsSub dailyMarker.data (toLowerCh hs.data) = true
  · simp only [hd, if_true]
    rcases scanTimeTokens hs.data with _ | ⟨o, _ | ⟨c, rest⟩⟩
    · exact parseDaySchedules_statusConsistent hs day t
    · exact parseDaySchedules_statusConsistent hs day t
    · exact statusConsistent_mk _ _
  · simp only [Bool.not_eq_true] at hd
    simp only [hd, Bool.false_eq_true, if_false]
    exact parseDaySchedules_statusConsistent hs day t

/-- Claim C8: for every pair of input strings and every current instant,
all three evaluation paths produce `statusText` exactly `"Open Now"` when
open and exactly `"Closed"` when closed, and `statusColor` exactly
`text-green-600` when open and `text-red-600` when closed; no other
values ever occur. -/
theorem claim_C8_status_invariant (o c : String) (day nowH nowM : Nat) :
    statusConsistent (getRestaurantStatus o c day nowH nowM) := by
  unfold getRestaurantStatus
  rcases detectHoursFormat o c
  · exact parseSimpleHours_statusConsistent o c nowH nowM
  · exact parseComplexHours_statusConsistent o day (nowH * 60 + nowM)

theorem claim_C8_witness :
    statusConsistent (getRestaurantStatus ("11:00") ("22:00") 2 14 0) :=
  claim_C8_status_invariant ("11:00") ("22:00") 2 14 0

/-- Counterexample to claim C2 as stated: with `opening = "22:00"`,
`closing = "01:00"` and the clock at 12:00, the current time is
lexicographically greater than `closing`, yet `nextChange` is present
(`"Opens at 10:00 PM"`), because the `now < opening` case takes
precedence; the claim's "absent when now > closing" therefore fails. -/
theorem claim_C2_counterexample :
    (getRestaurantStatus ("22:00") ("01:00") 2 12 0).nextChange =
      some ("Opens at 10:00 PM")
  ∧ strLT ("01:00") (pad2 12 ++ ":" ++ pad2 0) = true := ⟨by decide, by decide⟩

/-- Claim C2, amended: for Simple-format inputs the status is computed by
the Simple evaluator; `isOpen` is the inclusive lexicographic bound test
of the zero-padded clock string; `nextChange` announces closing when open
and opening when the clock is before `opening`, and is absent when the
clock is past `closing` and not before `opening` (the two conditions can
overlap only when `closing < opening`, where the "Opens at" case wins). -/
theorem claim_C2_simple_amended (opening closing : String) (day nowH nowM : Nat)
    (ho : simpleTimePattern opening.data = true)
    (hc : simpleTimePattern closing.data = true) :
    simpleSpecAmended opening closing day nowH nowM := by
  have hfmt : detectHoursFormat opening closing = HoursFormat.simple := by
    simp [detectHoursFormat, ho, hc]
  refine ⟨?_, rfl, ?_, ?_, ?_⟩
  · unfold getRestaurantStatus
    rw [hfmt]
  · intro hOpen
    unfold parseSimpleHours at hOpen ⊢
    simp only at hOpen
    simp only [hOpen, if_true]
  · intro hOpen hlt
    unfold parseSimpleHours at hOpen ⊢
    simp only at hOpen
    simp only [hOpen, Bool.false_eq_true, if_false, hlt, if_true]
  · intro hgt hle
    have hnotopen : (strLE opening (pad2 nowH ++ ":" ++ pad2 nowM) &&
        strLE (pad2 nowH ++ ":" ++ pad2 nowM) closing) = false := by
      have : strLE (pad2 nowH ++ ":" ++ pad2 nowM) closing = false := by
        simp [strLE, hgt]
      simp [this]
    have hnotlt : strLT (pad2 nowH ++ ":" ++ pad2 nowM) opening = false := by
      have := hle
      simp only [strLE, Bool.not_eq_true'] at this
      exact this
    unfold parseSimpleHours
    simp only [hnotopen, Bool.false_eq_true, if_false, hnotlt]

theorem claim_C2_witness :
    simpleTimePattern (("11:00" : String).data) = true
  ∧ simpleSpecAmended ("11:00") ("22:00") 2 14 0 :=
  ⟨by decide, claim_C2_simple_amended ("11:00") ("22:00") 2 14 0 (by decide) (by decide)⟩

/-- Claim C3: whenever the descriptor contains the case-insensitive
substring `daily:` and the global scan finds at least two time tokens, the
verdict is decided by the first two tokens found anywhere in the string —
all other text, day-range clauses included, is ignored — and `isOpen`
holds exactly when the current minute count lies between the two parsed
token values, inclusive at both ends. -/
theorem claim_C3_daily_shorthand (hs : String) (day t : Nat)
    (o c : TimeTok) (rest : List TimeTok)
    (hd : containsSub dailyMarker.data (toLowerCh hs.data) = true)
    (htoks : scanTimeTokens hs.data = o :: c :: rest) :
    (parseComplexHours hs day t).isOpen =
      (decide (parseTimeToMinutes o.text ≤ t) && decide (t ≤ parseTimeToMinutes c.text)) := by
  unfold parseComplexHours
  simp only [hd, if_true, htoks]

theorem claim_C3_witness :
    containsSub dailyMarker.data (toLowerCh (("Daily: 11AM-2PM; Fri: 5PM-9PM" : String).data)) = true
  ∧ scanTimeTokens (("Daily: 11AM-2PM; Fri: 5PM-9PM" : String).data) =
      [⟨"11AM", "11", none, false⟩, ⟨"2PM", "2", none, true⟩,
       ⟨"5PM", "5", none, true⟩, ⟨"9PM", "9", none, true⟩]
  ∧ (parseComplexHours ("Daily: 11AM-2PM; Fri: 5PM-9PM") 5 1080).isOpen =
      (decide (parseTimeToMinutes ("11AM") ≤ 1080) && decide (1080 ≤ parseTimeToMinutes ("2PM"))) :=
  ⟨by decide, by decide,
   claim_C3_daily_shorthand ("Daily: 11AM-2PM; Fri: 5PM-9PM") 5 1080
     ⟨"11AM", "11", none, false⟩ ⟨"2PM", "2", none, true⟩
     [⟨"5PM", "5", none, true⟩, ⟨"9PM", "9", none, true⟩] (by decide) (by decide)⟩

/-- Claim C6: a token matching the time pattern parses to its hour times
sixty plus its minutes, minutes defaulting to zero when omitted, with
`12 AM` giving 0, `12 PM` giving 720 and any other hour kept as-is plus
twelve hours when `PM`; an input with no match parses to the zero
sentinel, and the parser is total (it never throws). -/
theorem claim_C6_time_token :
    (∀ s : String, firstTimeMatch s.data = none → parseTimeToMinutes s = 0)
  ∧ (∀ (s : String) (tok : TimeTok), firstTimeMatch s.data = some tok →
       parseTimeToMinutes s = timeTokValue tok)
  ∧ parseTimeToMinutes ("2PM") = 840
  ∧ parseTimeToMinutes ("12AM") = 0
  ∧ parseTimeToMinutes ("12PM") = 720
  ∧ parseTimeToMinutes ("11:30AM") = 690
  ∧ parseTimeToMinutes ("no match here") = 0 := by
  refine ⟨?_, ?_, by decide, by decide, by decide, by decide, by decide⟩
  · intro s hnone
    unfold parseTimeToMinutes
    rw [hnone]
  · intro s tok hsome
    unfold parseTimeToMinutes timeTokValue
    rw [hsome]
    by_cases h12 : natOfDigits tok.hourStr.data = 12 <;>
      by_cases hpm : tok.isPM = true <;>
        simp [h12, hpm, bne]

theorem claim_C6_witness :
    firstTimeMatch (("2PM" : String).data) = some ⟨"2PM", "2", none, true⟩
  ∧ parseTimeToMinutes ("2PM") = timeTokValue ⟨"2PM", "2", none, true⟩ :=
  ⟨by decide, claim_C6_time_token.2.1 ("2PM") ⟨"2PM", "2", none, true⟩ (by decide)⟩

/-- When the Daily path does not apply, the Complex evaluator is exactly
the day-qualified loop. -/
theorem parseComplexHours_not_daily (hs : String) (day t : Nat)
    (hnd : dailyPathTaken hs = false) :
    parseComplexHours hs day t = parseDaySchedules hs day t := by
  unfold dailyPathTaken at hnd
  unfold parseComplexHours
  cases hc : containsSub dailyMarker.data (toLowerCh hs.data)
  · simp only [hc, Bool.false_eq_true, if_false]
  · rw [hc] at hnd
    simp only [Bool.true_and, decide_eq_false_iff_not, Nat.not_le] at hnd
    simp only [hc, if_true]
    rcases htoks : scanTimeTokens hs.data with _ | ⟨o, _ | ⟨c, rest⟩⟩
    · rfl
    · rfl
    · rw [htoks] at hnd
      simp only [List.length_cons] at hnd
      omega

/-- The clause loop returns the verdict of the first clause that yields
one, given that all earlier clauses yield none. -/
theorem findClauseOpen_first {day t : Nat} :
    ∀ (l : List (List Char)) (i : Nat) (cl : List Char) (c : String),
      l.get? i = some cl → evalSchedule day t cl = some c →
      (∀ j : Nat, j < i → ∀ cl2 : List Char,
         l.get? j = some cl2 → evalSchedule day t cl2 = none) →
      findClauseOpen day t l = some c := by
  intro l
  induction l with
  | nil =>
    intro i cl c hget _ _
    simp [List.get?] at hget
  | cons s rest ih =>
    intro i cl c hget heval hprev
    cases i with
    | zero =>
      simp only [List.get?, Option.some.injEq] at hget
      subst hget
      simp [findClauseOpen, heval]
    | succ i' =>
      have hs : evalSchedule day t s = none := hprev 0 (Nat.succ_pos _) s rfl
      simp only [List.get?] at hget
      simp only [findClauseOpen, hs]
      exact ih i' cl c hget heval
        (fun j hj cl2 hg => hprev (j + 1) (Nat.succ_lt_succ hj) cl2 hg)

/-- When every clause yields none, the clause loop yields none. -/
theorem findClauseOpen_none_all {day t : Nat} :
    ∀ l : List (List Char), (∀ cl ∈ l, evalSchedule day t cl = none) →
      findClauseOpen day t l = none := by
  intro l
  induction l with
  | nil => intro _; rfl
  | cons s rest ih =>
    intro hall
    have hs := hall s (List.mem_cons_self ..)
    simp only [findClauseOpen, hs]
    exact ih (fun cl hcl => hall cl (List.mem_cons_of_mem _ hcl))

/-- Claim C1: on the day-qualified path the semicolon-separated clauses
are processed in textual order; the first clause whose day range contains
the current day and one of whose intervals contains the current time
(inclusive bounds) yields the open record with `"Closes at "` followed by
the close token exactly as matched in the descriptor; a clause whose day
range matches but with no interval containing the current time yields
none, so evaluation continues to later clauses rather than stopping with
a Closed verdict; only when every clause yields none is the result the
closed record. -/
theorem claim_C1_day_qualified (hs : String) (day t : Nat)
    (hnd : dailyPathTaken hs = false) :
    (∀ (i : Nat) (cl : List Char) (c : String),
        ((jsSplitCh ';' hs.data).map trimCh).get? i = some cl →
        evalSchedule day t cl = some c →
        (∀ j : Nat, j < i → ∀ cl2 : List Char,
            ((jsSplitCh ';' hs.data).map trimCh).get? j = some cl2 →
            evalSchedule day t cl2 = none) →
        parseComplexHours hs day t = openNowRecord c)
  ∧ ((∀ cl ∈ (jsSplitCh ';' hs.data).map trimCh, evalSchedule day t cl = none) →
        parseComplexHours hs day t = closedRecord)
  ∧ (∀ cl dayPart timePart : List Char, splitClause cl = some (dayPart, timePart) →
        isDayInRangeJS day (resolveDays dayPart).1 (resolveDays dayPart).2 = true →
        firstOpenInterval t (intervalsOf timePart) = none →
        evalSchedule day t cl = none)
  ∧ (∀ (cl : List Char) (c : String), evalSchedule day t cl = some c ↔
        ∃ dayPart timePart : List Char, splitClause cl = some (dayPart, timePart) ∧
          isDayInRangeJS day (resolveDays dayPart).1 (resolveDays dayPart).2 = true ∧
          firstOpenInterval t (intervalsOf timePart) = some c) := by
  refine ⟨?_, ?_, ?_, ?_⟩
  · intro i cl c hget heval hprev
    rw [parseComplexHours_not_daily hs day t hnd]
    simp only [parseDaySchedules]
    rw [findClauseOpen_first ((jsSplitCh ';' hs.data).map trimCh) i cl c hget heval hprev]
    rfl
  · intro hall
    rw [parseComplexHours_not_daily hs day t hnd]
    simp only [parseDaySchedules]
    rw [findClauseOpen_none_all ((jsSplitCh ';' hs.data).map trimCh) hall]
    rfl
  · intro cl dayPart timePart hsp hday hnone
    unfold evalSchedule
    rw [hsp]
    simp only [hday, if_true, hnone]
  · intro cl c
    constructor
    · intro h
      unfold evalSchedule at h
      split at h
      · simp at h
      · rename_i pr dayPart timePart heq
        by_cases hday :
            isDayInRangeJS day (resolveDays dayPart).1 (resolveDays dayPart).2 = true
        · refine ⟨dayPart, timePart, heq, hday, ?_⟩
          simpa [hday] using h
        · simp [hday] at h
    · rintro ⟨dayPart, timePart, hsp, hday, hfoi⟩
      unfold evalSchedule
      rw [hsp]
      simp only [hday, if_true, hfoi]

theorem claim_C1_witness :
    dailyPathTaken ("Tue: 1PM-2PM; Mon-Sat: 11AM-10PM") = false
  ∧ evalSchedule 2 1200 (("Tue: 1PM-2PM" : String).data) = none
  ∧ parseComplexHours ("Tue: 1PM-2PM; Mon-Sat: 11AM-10PM") 2 1200 =
      openNowRecord ("10PM") :=
  ⟨by decide, by decide,
   (claim_C1_day_qualified ("Tue: 1PM-2PM; Mon-Sat: 11AM-10PM") 2 1200 (by decide)).1
     1 (("Mon-Sat: 11AM-10PM" : String).data) ("10PM") (by decide) (by decide)
     (fun j hj cl2 hg => by
        have hj0 : j = 0 := Nat.lt_one_iff.1 hj
        subst hj0
        have hxx : ((jsSplitCh ';'
            (("Tue: 1PM-2PM; Mon-Sat: 11AM-10PM" : String).data)).map trimCh).get? 0 =
            some (("Tue: 1PM-2PM" : String).data) := by decide
        rw [hxx] at hg
        have hcl : cl2 = (("Tue: 1PM-2PM" : String).data) := (Option.some.inj hg).symm
        subst hcl
        decide)⟩

/-- Counterexample to claim C4 as stated: the claim's "split once on the
first hyphen" would give the token `"Mon-Tue-Wed"` the end side
`"tue-wed"`, which does not resolve in the day map, so the clause could
never match any day; but the evaluator reports open on a Tuesday within
the interval, because the destructured `split('-')` takes the first two
parts (`"mon"`, `"tue"`) and discards the rest. -/
theorem claim_C4_counterexample :
    dayMap ("tue-wed") = none
  ∧ (parseComplexHours ("Mon-Tue-Wed: 1PM-2PM") 2 780).isOpen = true :=
  ⟨by decide, by decide⟩

/-- Claim C4, amended: a hyphenated day token is split at every hyphen
and the first two trimmed parts become the start and end names (parts
after the second are ignored); a hyphen-free token resolves to both
bounds; a token (or pair) that resolves to no bound never matches any
day; but when exactly one bound of a hyphenated token resolves, the
undefined-comparison semantics make the clause match every day at or
after the resolved start (respectively at or before the resolved end);
in all cases no error is thrown. -/
theorem claim_C4_day_token_amended (dayPart : List Char) (day : Nat) :
    (dayPart.contains '-' = false →
       resolveDays dayPart = (dayMap (String.mk dayPart), dayMap (String.mk dayPart)))
  ∧ (∀ (p0 p1 : List Char) (tail : List (List Char)),
       (jsSplitCh '-' dayPart).map trimCh = p0 :: p1 :: tail →
       dayPart.contains '-' = true →
       resolveDays dayPart = (dayMap (String.mk p0), dayMap (String.mk p1)))
  ∧ isDayInRangeJS day none none = false
  ∧ (∀ s : Nat, isDayInRangeJS day (some s) none = decide (s ≤ day))
  ∧ (∀ e : Nat, isDayInRangeJS day none (some e) = decide (day ≤ e)) := by
  refine ⟨?_, ?_, rfl, fun s => rfl, fun e => rfl⟩
  · intro hnoh
    unfold resolveDays
    rw [hnoh]
    simp
  · intro p0 p1 tail hsplit hhyph
    unfold resolveDays
    rw [hhyph, if_pos rfl, hsplit]

theorem claim_C4_witness :
    ((("mon-tue-wed" : String).data).contains '-' = true)
  ∧ resolveDays (("mon-tue-wed" : String).data) = (dayMap ("mon"), dayMap ("tue")) :=
  ⟨by decide,
   (claim_C4_day_token_amended (("mon-tue-wed" : String).data) 0).2.1
     (("mon" : String).data) (("tue" : String).data) [(("wed" : String).data)]
     (by decide) (by decide)⟩

/-- Counterexample to claim C10's contrast clause as stated ("the Simple
path omits nextChange after closing"): with `opening = "23:00"`,
`closing = "02:00"` and the clock at 13:00 the restaurant is closed and
the current time is lexicographically past `closing`, yet `nextChange` is
present, because `now < opening` takes precedence. -/
theorem claim_C10_counterexample :
    (parseSimpleHours ("23:00") ("02:00") 13 0).isOpen = false
  ∧ strLT ("02:00") (pad2 13 ++ ":" ++ pad2 0) = true
  ∧ (parseSimpleHours ("23:00") ("02:00") 13 0).nextChange =
      some ("Opens at 11:00 PM") :=
  ⟨by decide, by decide, by decide⟩

/-- Claim C10, amended: on the Daily-shorthand path every closed result
carries `nextChange = "Opens at "` followed by the first token as found,
even when the current time is already past the close time; in contrast,
the Simple path omits `nextChange` when the clock is past closing
provided it is not before opening (which takes precedence), and the
day-qualified path's closed result never carries a `nextChange`. -/
theorem claim_C10_nextchange_amended :
    (∀ (hs : String) (day t : Nat) (o c : TimeTok) (rest : List TimeTok),
       containsSub dailyMarker.data (toLowerCh hs.data) = true →
       scanTimeTokens hs.data = o :: c :: rest →
       (parseComplexHours hs day t).isOpen = false →
       (parseComplexHours hs day t).nextChange = some ("Opens at " ++ o.text))
  ∧ (∀ (opening closing : String) (nowH nowM : Nat),
       (parseSimpleHours opening closing nowH nowM).isOpen = false →
       strLT (pad2 nowH ++ ":" ++ pad2 nowM) opening = false →
       (parseSimpleHours opening closing nowH nowM).nextChange = none)
  ∧ (∀ (hs : String) (day t : Nat), dailyPathTaken hs = false →
       (parseComplexHours hs day t).isOpen = false →
       (parseComplexHours hs day t).nextChange = none) := by
  refine ⟨?_, ?_, ?_⟩
  · intro hs day t o c rest hd htoks hOpen
    unfold parseComplexHours at hOpen ⊢
    simp only [hd, if_true, htoks] at hOpen ⊢
    simp only [hOpen, Bool.false_eq_true, if_false]
  · intro opening closing nowH nowM hOpen hlt
    unfold parseSimpleHours at hOpen ⊢
    simp only at hOpen
    simp only [hOpen, Bool.false_eq_true, if_false, hlt]
  · intro hs day t hnd hOpen
    rw [parseComplexHours_not_daily hs day t hnd] at hOpen ⊢
    simp only [parseDaySchedules] at hOpen ⊢
    rcases hf : findClauseOpen day t ((jsSplitCh ';' hs.data).map trimCh) with _ | closeStr
    · rfl
    · rw [hf] at hOpen
      simp at hOpen

theorem claim_C10_witness :
    containsSub dailyMarker.data (toLowerCh (("Daily: 11:00AM-9:00PM" : String).data)) = true
  ∧ (parseComplexHours ("Daily: 11:00AM-9:00PM") 2 1320).isOpen = false
  ∧ (parseComplexHours ("Daily: 11:00AM-9:00PM") 2 1320).nextChange =
      some ("Opens at 11:00AM") :=
  ⟨by decide, by decide,
   claim_C10_nextchange_amended.1 ("Daily: 11:00AM-9:00PM") 2 1320
     ⟨"11:00AM", "11", some ("00"), false⟩ ⟨"9:00PM", "9", some ("00"), true⟩ []
     (by decide) (by decide) (by decide)⟩
